import Mathlib

/-!
# Verification of the wayfire scenegraph core (`src/core/scene.cpp`)

Shallow embedding of the scenegraph data model and operations:

* a node is identified by a numeric identity (standing for its address) and an
  immutable `is_structure` flag (`node_t::_is_structure`);
* the mutable state of the graph relevant to the claims is, per inner node, its
  ordered child list (`inner_node_t::children`) together with the global map of
  parent back-references (`node_t::_parent`), modelled as `Nat → Option Nat`;
* `set_children_list`, `set_children_unchecked`, `extract_structure_nodes`,
  `output_node_t`'s and `root_node_t`'s constructors, and `layer_node_t`'s
  `node_for_output` / `handle_outputs_changed` are translated function by
  function from `src/core/scene.cpp`;
* hit testing (`inner_node_t::find_node_at`) is modelled on an inductive tree,
  since the leaf implementation is a pure virtual member: a leaf carries an
  arbitrary hit function `P → Option A` (payload type `A` stands for
  `input_node_t`).
-/

namespace WfScene

/-- A scenegraph node as far as identity is concerned: `id` stands for the
object's address (identity), `is_structure` for the immutable
`node_t::_is_structure` flag set at construction. -/
structure Node where
  id : Nat
  is_structure : Bool
deriving DecidableEq, Repr

/-- The global map of parent back-references (`node_t::_parent`), keyed by node
identity. `none` models an unattached node. -/
abbrev ParentMap := Nat → Option Nat

/-- Model of `extract_structure_nodes` from scene.cpp: the in-order subsequence of
nodes flagged `is_structure`, compared by identity. -/
def extract_structure_nodes (list : List Node) : List Node :=
  list.filter (fun node => node.is_structure)

/-- Model of `inner_node_t::set_children_unchecked` from scene.cpp: installs `new_list`
as the child list and sets every listed node's parent back-reference to
`self`. Returns the new child list and the updated parent map. -/
def set_children_unchecked (self : Nat) (new_list : List Node) (par : ParentMap) :
    List Node × ParentMap :=
  (new_list, fun i => if new_list.any (fun node => node.id == i) then some self else par i)

/-- Model of `inner_node_t::set_children_list` from scene.cpp: rejects the new list
(returning `false` and leaving children and parents untouched) when the
structural subsequences differ, otherwise installs it via
`set_children_unchecked` and returns `true`. The result is
`(return value, children after the call, parent map after the call)`. -/
def set_children_list (self : Nat) (cur : List Node) (par : ParentMap)
    (new_list : List Node) : Bool × List Node × ParentMap :=
  if extract_structure_nodes cur = extract_structure_nodes new_list then
    (true, set_children_unchecked self new_list par)
  else
    (false, cur, par)

/-- Model of `output_node_t::output_node_t` from scene.cpp: the node itself is
constructed with `inner_node_t(true)` (structural); it creates two structural
inner nodes `_static` and `dynamic` and installs `{_static, dynamic}` via
`set_children_unchecked`. -/
def output_node_new (selfId staticId dynId : Nat) (par : ParentMap) :
    List Node × ParentMap :=
  set_children_unchecked selfId [⟨staticId, true⟩, ⟨dynId, true⟩] par

/-- Value of `layer::ALL_LAYERS` from scene.hpp. -/
def ALL_LAYERS : Nat := 6

/-- The `layer` enum from scene.hpp (`BACKGROUND = 0` … `OVERLAY = 5`). -/
inductive layer where
  | BACKGROUND
  | BOTTOM
  | WORKSPACE
  | TOP
  | UNMANAGED
  | OVERLAY
deriving DecidableEq, Repr

/-- Numeric value of the `layer` enum. -/
def layer.toNat : layer → Nat
  | .BACKGROUND => 0
  | .BOTTOM => 1
  | .WORKSPACE => 2
  | .TOP => 3
  | .UNMANAGED => 4
  | .OVERLAY => 5

/-- Model of `root_node_t::root_node_t` from scene.cpp: for `i = ALL_LAYERS - 1` down
to `0` it allocates `layers[i]` (a structural `layer_node_t`, identity
`layerIds i`) and pushes it onto the child vector, then installs the vector
via `set_children_unchecked`. -/
def root_node_new (selfId : Nat) (layerIds : Nat → Nat) (par : ParentMap) :
    List Node × ParentMap :=
  set_children_unchecked selfId
    (((List.range ALL_LAYERS).reverse).map (fun i => ⟨layerIds i, true⟩)) par

/-- The mutable state of a `layer_node_t`: its child list and its
`std::map<wf::output_t*, std::shared_ptr<output_node_t>> outputs`, modelled as
an association list from output identity to the container node. -/
structure LayerState where
  children : List Node
  outputs : List (Nat × Node)
deriving DecidableEq, Repr

/-- Insert-or-assign on the outputs map (`outputs[output] = node`). -/
def map_insert (m : List (Nat × Node)) (k : Nat) (v : Node) : List (Nat × Node) :=
  if m.any (fun p => p.1 == k) then
    m.map (fun p => if p.1 == k then (k, v) else p)
  else
    m ++ [(k, v)]

/-- Model of `outputs.erase(output)`. -/
def map_erase (m : List (Nat × Node)) (k : Nat) : List (Nat × Node) :=
  m.filter (fun p => p.1 ≠ k)

/-- Model of `layer_node_t::node_for_output` from scene.cpp: map lookup, returning the
null sentinel (modelled `none`) when the output is not registered. -/
def node_for_output (st : LayerState) (output : Nat) : Option Node :=
  (st.outputs.find? (fun p => p.1 == output)).map Prod.snd

/-- Model of `layer_node_t::handle_outputs_changed` from scene.cpp.

* `add = true`: constructs a fresh structural `output_node_t` (identity
  `freshId`), assigns it into the outputs map and appends it at the back of
  the child vector (`list.push_back`), then `set_children_unchecked(list)`.
* `add = false`: looks up `outputs[output]`. When the output is registered
  and the container occurs exactly once among the children,
  `list.erase(std::remove(list.begin(), list.end(), target))` removes exactly
  that occurrence (by identity), the map entry is erased, and
  `set_children_unchecked(list)` runs. When the output is NOT registered,
  `outputs[output]` default-inserts a null `shared_ptr` into the map and
  `std::remove` finds nothing, so `list.erase(list.end())` is evaluated —
  undefined behavior in C++ (likewise the leftover moved-from tail when the
  target occurs more than once). These undefined executions are modelled as
  `none`; no defensive assertion exists anywhere on either path. -/
def handle_outputs_changed (self : Nat) (st : LayerState) (par : ParentMap)
    (output : Nat) (add : Bool) (freshId : Nat) :
    Option (LayerState × ParentMap) :=
  let list := st.children
  if add then
    let fresh : Node := ⟨freshId, true⟩
    let outputs2 := map_insert st.outputs output fresh
    let (c, p) := set_children_unchecked self (list ++ [fresh]) par
    some ({ children := c, outputs := outputs2 }, p)
  else
    match node_for_output st output with
    | some target =>
      if list.count target = 1 then
        let outputs2 := map_erase st.outputs output
        let (c, p) := set_children_unchecked self (list.filter (fun n => n ≠ target)) par
        some ({ children := c, outputs := outputs2 }, p)
      else
        none
    | none => none

/-- States of a generic inner node reachable from `s` by any sequence of
`set_children_list` calls (successful or failed; a failed call leaves the
state unchanged by construction of `set_children_list`). -/
inductive reach (self : Nat) : List Node × ParentMap → List Node × ParentMap → Prop
  | refl (s : List Node × ParentMap) : reach self s s
  | step (s t : List Node × ParentMap) (nl : List Node) :
      reach self s t → reach self s (set_children_list self t.1 t.2 nl).2

/-- The child list produced by `handle_outputs_changed`, when defined. -/
def hoc_result_children (self : Nat) (st : LayerState) (par : ParentMap)
    (output : Nat) (add : Bool) (freshId : Nat) : Option (List Node) :=
  (handle_outputs_changed self st par output add freshId).map (fun s => s.1.children)

/-- The outputs map produced by `handle_outputs_changed`, when defined. -/
def hoc_result_outputs (self : Nat) (st : LayerState) (par : ParentMap)
    (output : Nat) (add : Bool) (freshId : Nat) : Option (List (Nat × Node)) :=
  (handle_outputs_changed self st par output add freshId).map (fun s => s.1.outputs)

/-- Membership test for being one of a layer's output containers: the node is
a value of the layer's outputs map. -/
def is_output_container (m : List (Nat × Node)) (n : Node) : Bool :=
  m.any (fun q => q.2 == n)

/-- Evolutions of a layer node under any interleaving of `set_children_list`
calls (restricted to duplicate-free proposed lists) and defined
`handle_outputs_changed` calls whose fresh container is not already a child.
`set_children_list` leaves the outputs map untouched. -/
inductive layer_steps (self : Nat) :
    LayerState × ParentMap → LayerState × ParentMap → Prop
  | refl (s : LayerState × ParentMap) : layer_steps self s s
  | scl (s t : LayerState × ParentMap) (nl : List Node) (hnd : nl.Nodup)
      (h : layer_steps self s t) :
      layer_steps self s
        ({ children := (set_children_list self t.1.children t.2 nl).2.1,
           outputs := t.1.outputs },
         (set_children_list self t.1.children t.2 nl).2.2)
  | hoc (s t : LayerState × ParentMap) (output : Nat) (add : Bool) (freshId : Nat)
      (u : LayerState × ParentMap)
      (hf : (⟨freshId, true⟩ : Node) ∉ t.1.children)
      (h : layer_steps self s t)
      (hu : handle_outputs_changed self t.1 t.2 output add freshId = some u) :
      layer_steps self s u

end WfScene

namespace WfScene

/-! ## Hit testing (`find_node_at`)

`node_t::find_node_at` is pure virtual; concrete leaves test their own
geometry and return a payload (`input_node_t`) or nothing. The inner node
implementation in scene.cpp iterates `get_children()` in stored order and
returns the first non-empty child result. We model the tree shape as an
inductive type over an abstract point type `P` and payload type `A`. -/

/-- A hit-test view of the scenegraph: a leaf carries its concrete
`find_node_at` implementation, an inner node its ordered child list. -/
inductive HNode (P A : Type) : Type where
  | leaf : (P → Option A) → HNode P A
  | inner : List (HNode P A) → HNode P A

mutual

/-- Model of `find_node_at` from scene.cpp: a leaf runs its own hit test; an inner node
delegates to its children in stored order via the loop `find_first`. -/
def find_node_at {P A : Type} : HNode P A → P → Option A
  | HNode.leaf hit, p => hit p
  | HNode.inner cs, p => find_first cs p

/-- The loop body of `inner_node_t::find_node_at`: iterate the children in
order, return the first `child->find_node_at(at)` that has a value. -/
def find_first {P A : Type} : List (HNode P A) → P → Option A
  | [], _ => none
  | c :: rest, p =>
    match find_node_at c p with
    | some res => some res
    | none => find_first rest p

end

/-! ## Helper lemmas -/

/-- Lemma: `set_children_unchecked` sets the parent back-reference of every listed
node to `self`. -/
theorem set_children_unchecked_parent (self : Nat) (new_list : List Node)
    (par : ParentMap) (c : Node) (hc : c ∈ new_list) :
    (set_children_unchecked self new_list par).2 c.id = some self := by
  have hany : new_list.any (fun node => node.id == c.id) = true :=
    List.any_eq_true.mpr ⟨c, hc, by simp⟩
  show (if new_list.any (fun node => node.id == c.id) then some self else par c.id) =
    some self
  rw [hany]
  rfl

/-- Lemma: `set_children_list` never changes the structural subsequence of the
children, whether it succeeds or fails. -/
theorem set_children_list_extract (self : Nat) (cur : List Node) (par : ParentMap)
    (nl : List Node) :
    extract_structure_nodes (set_children_list self cur par nl).2.1 =
      extract_structure_nodes cur := by
  unfold set_children_list
  by_cases h : extract_structure_nodes cur = extract_structure_nodes nl
  · simp [h, set_children_unchecked]
  · simp [h]

/-- Along any sequence of `set_children_list` calls, the structural
subsequence of the children is invariant. -/
theorem reach_extract (self : Nat) (s t : List Node × ParentMap)
    (h : reach self s t) :
    extract_structure_nodes t.1 = extract_structure_nodes s.1 := by
  induction h with
  | refl => rfl
  | step t nl h ih => rw [set_children_list_extract]; exact ih

/-- A structural node occurs exactly as often in a child list as in its
structural subsequence. -/
theorem count_extract_structure (x : Node) (hx : x.is_structure = true)
    (l : List Node) : (extract_structure_nodes l).count x = l.count x := by
  simpa [extract_structure_nodes] using
    List.count_filter (l := l) (a := x) (p := fun n : Node => n.is_structure) hx

/-- Success condition: `set_children_list` succeeds exactly when the structural subsequences of
the current and the proposed child list agree. -/
theorem scl_success_iff (self : Nat) (cur : List Node) (par : ParentMap)
    (nl : List Node) :
    (set_children_list self cur par nl).1 = true ↔
      extract_structure_nodes cur = extract_structure_nodes nl := by
  unfold set_children_list
  by_cases h : extract_structure_nodes cur = extract_structure_nodes nl <;> simp [h]

/-- On success, `set_children_list` installs exactly the proposed list. -/
theorem scl_children_of_success (self : Nat) (cur : List Node) (par : ParentMap)
    (nl : List Node)
    (h : extract_structure_nodes cur = extract_structure_nodes nl) :
    (set_children_list self cur par nl).2.1 = nl := by
  unfold set_children_list
  simp [h, set_children_unchecked]

/-- Structural extraction distributes over list append. -/
theorem extract_append (l1 l2 : List Node) :
    extract_structure_nodes (l1 ++ l2) =
      extract_structure_nodes l1 ++ extract_structure_nodes l2 := by
  unfold extract_structure_nodes
  exact List.filter_append l1 l2

/-- Inserting a key not present in the outputs map appends the new entry. -/
theorem map_insert_of_not_found (m : List (Nat × Node)) (k : Nat) (v : Node)
    (h : m.find? (fun p => p.1 == k) = none) :
    map_insert m k v = m ++ [(k, v)] := by
  have hall := List.find?_eq_none.mp h
  have hany : m.any (fun p => p.1 == k) = false :=
    List.any_eq_false.mpr hall
  simp [map_insert, hany]

/-- After erasing a key from the outputs map, looking it up finds nothing. -/
theorem find?_map_erase (m : List (Nat × Node)) (k : Nat) :
    (map_erase m k).find? (fun p => p.1 == k) = none := by
  apply List.find?_eq_none.mpr
  intro x hx
  simp only [map_erase, List.mem_filter] at hx
  simpa using hx.2

/-- The child list after `set_children_list` is either the old or the
proposed list. -/
theorem scl_children_cases (self : Nat) (cur : List Node) (par : ParentMap)
    (nl : List Node) :
    (set_children_list self cur par nl).2.1 = cur ∨
    (set_children_list self cur par nl).2.1 = nl := by
  unfold set_children_list
  by_cases h : extract_structure_nodes cur = extract_structure_nodes nl
  · right
    simp [h, set_children_unchecked]
  · left
    simp [h]

/-- A defined `handle_outputs_changed` call either appends the fresh
container at the back or filters one node out of the children. -/
theorem hoc_children_cases (self : Nat) (st : LayerState) (par : ParentMap)
    (output : Nat) (add : Bool) (freshId : Nat) (st2 : LayerState)
    (par2 : ParentMap)
    (h : handle_outputs_changed self st par output add freshId = some (st2, par2)) :
    st2.children = st.children ++ [⟨freshId, true⟩] ∨
    ∃ target, st2.children = st.children.filter (fun n => n ≠ target) := by
  unfold handle_outputs_changed at h
  cases add with
  | true =>
    left
    simp only [if_true, Option.some.injEq, Prod.mk.injEq] at h
    rw [← h.1]
    rfl
  | false =>
    right
    rw [if_neg Bool.false_ne_true] at h
    cases hfind : node_for_output st output with
    | none => rw [hfind] at h; exact absurd h (by simp)
    | some target =>
      rw [hfind] at h
      by_cases hcount : st.children.count target = 1
      · simp only [hcount, if_true, Option.some.injEq, Prod.mk.injEq] at h
        refine ⟨target, ?_⟩
        rw [← h.1]
        rfl
      · simp [hcount] at h

/-! ## Claims -/

/-- C1: for every inner node and every proposed new child list,
`set_children_list` succeeds exactly when the in-order subsequence of
`is_structure` nodes extracted from the current child list is identical, in
node identity and order, to the one extracted from the new list; on success
the node's child sequence becomes exactly the new list. -/
theorem C1_set_children_list_success_iff (self : Nat) (cur : List Node)
    (par : ParentMap) (nl : List Node) :
    ((set_children_list self cur par nl).1 = true ↔
      extract_structure_nodes cur = extract_structure_nodes nl) ∧
    ((set_children_list self cur par nl).1 = true →
      (set_children_list self cur par nl).2.1 = nl) := by
  unfold set_children_list
  by_cases h : extract_structure_nodes cur = extract_structure_nodes nl
  · simp [h, set_children_unchecked]
  · simp [h]

/-- Witness for C1: replacing the non-structural child of `[⟨1,tt⟩, ⟨2,ff⟩]`
by nothing succeeds and installs exactly the proposed list. -/
theorem C1_set_children_list_success_iff_witness :
    (set_children_list 0 [⟨1, true⟩, ⟨2, false⟩] (fun _ => none) [⟨1, true⟩]).2.1 =
      [⟨1, true⟩] :=
  (C1_set_children_list_success_iff 0 [⟨1, true⟩, ⟨2, false⟩] (fun _ => none)
    [⟨1, true⟩]).2 (by decide)

/-- C2: a failed `set_children_list` call leaves the child list identical, by
node identity and order, to its value before the call, and leaves every parent
back-reference unchanged (no partial update). -/
theorem C2_failed_set_children_list_no_change (self : Nat) (cur : List Node)
    (par : ParentMap) (nl : List Node)
    (h : (set_children_list self cur par nl).1 = false) :
    (set_children_list self cur par nl).2.1 = cur ∧
    (set_children_list self cur par nl).2.2 = par := by
  unfold set_children_list at h ⊢
  by_cases hc : extract_structure_nodes cur = extract_structure_nodes nl
  · simp [hc] at h
  · simp [hc]

/-- Witness for C2: dropping the structural child `⟨1,tt⟩` is rejected and the
state is returned untouched. -/
theorem C2_failed_set_children_list_no_change_witness :
    (set_children_list 0 [⟨1, true⟩] (fun _ => none) []).2.1 = [⟨1, true⟩] ∧
    (set_children_list 0 [⟨1, true⟩] (fun _ => none) []).2.2 = (fun _ => none) :=
  C2_failed_set_children_list_no_change 0 [⟨1, true⟩] (fun _ => none) [] (by decide)

/-- C3: after every successful mutation of an inner node `N` — a
`set_children_list` call returning `true`, or a defined
`handle_outputs_changed` call on a layer node — every node `c` in `N`'s child
list satisfies `c.parent() == N`. -/
theorem C3_children_parent_after_mutation (self : Nat) :
    (∀ cur par nl, (set_children_list self cur par nl).1 = true →
      ∀ c ∈ (set_children_list self cur par nl).2.1,
        (set_children_list self cur par nl).2.2 c.id = some self) ∧
    (∀ st par output add freshId st2 par2,
      handle_outputs_changed self st par output add freshId = some (st2, par2) →
      ∀ c ∈ st2.children, par2 c.id = some self) := by
  constructor
  · intro cur par nl h c hc
    unfold set_children_list at *
    by_cases hcond : extract_structure_nodes cur = extract_structure_nodes nl
    · simp only [hcond, if_true] at hc ⊢
      exact set_children_unchecked_parent self nl par c hc
    · simp [hcond] at h
  · intro st par output add freshId st2 par2 h c hc
    unfold handle_outputs_changed at h
    cases add with
    | true =>
      simp only [if_true, Option.some.injEq, Prod.mk.injEq] at h
      obtain ⟨hst, hpar⟩ := h
      rw [← hst] at hc
      rw [← hpar]
      exact set_children_unchecked_parent self _ par c hc
    | false =>
      simp only [if_false] at h
      cases hfind : node_for_output st output with
      | none => rw [hfind] at h; exact absurd h (by simp)
      | some target =>
        rw [hfind] at h
        by_cases hcount : st.children.count target = 1
        · simp only [hcount, if_true, Option.some.injEq, Prod.mk.injEq] at h
          obtain ⟨hst, hpar⟩ := h
          exact set_children_unchecked_parent self _ par c hc
        · simp [hcount] at h

/-- Witness for C3: a successful `set_children_list` on an empty node and a
defined output addition both re-point every child's parent to the node. -/
theorem C3_children_parent_after_mutation_witness :
    (set_children_list 4 [] (fun _ => none) [⟨9, false⟩]).2.2 9 = some 4 ∧
    ∀ st2 par2,
      handle_outputs_changed 4 ⟨[], []⟩ (fun _ => none) 0 true 7 = some (st2, par2) →
      ∀ c ∈ st2.children, par2 c.id = some 4 := by
  constructor
  · exact (C3_children_parent_after_mutation 4).1 [] (fun _ => none) [⟨9, false⟩]
      (by decide) ⟨9, false⟩ (by decide)
  · intro st2 par2 h
    exact (C3_children_parent_after_mutation 4).2 ⟨[], []⟩ (fun _ => none) 0 true 7
      st2 par2 h

/-- C4: a freshly constructed root node has exactly `ALL_LAYERS` (6) children,
all structural layer nodes, ordered topmost-painted first — overlay,
unmanaged, top, workspace, bottom, background — and the child at position `k`
is the `layers` array entry for enum value `ALL_LAYERS - 1 - k`. -/
theorem C4_root_children (selfId : Nat) (layerIds : Nat → Nat) (par : ParentMap) :
    ((root_node_new selfId layerIds par).1.length = ALL_LAYERS) ∧
    (∀ x ∈ (root_node_new selfId layerIds par).1, x.is_structure = true) ∧
    ((root_node_new selfId layerIds par).1 =
      [layer.OVERLAY, layer.UNMANAGED, layer.TOP, layer.WORKSPACE, layer.BOTTOM,
        layer.BACKGROUND].map (fun l => ⟨layerIds l.toNat, true⟩)) ∧
    (∀ k, k < ALL_LAYERS →
      (root_node_new selfId layerIds par).1[k]? =
        some ⟨layerIds (ALL_LAYERS - 1 - k), true⟩) := by
  have hlist : (root_node_new selfId layerIds par).1 =
      [⟨layerIds 5, true⟩, ⟨layerIds 4, true⟩, ⟨layerIds 3, true⟩,
        ⟨layerIds 2, true⟩, ⟨layerIds 1, true⟩, ⟨layerIds 0, true⟩] := by
    simp [root_node_new, set_children_unchecked, ALL_LAYERS]
    rfl
  refine ⟨by rw [hlist]; rfl, ?_, by rw [hlist]; rfl, ?_⟩
  · intro x hx
    rw [hlist] at hx
    simp at hx
    rcases hx with h | h | h | h | h | h <;> rw [h]
  · intro k hk
    rw [hlist]
    have hk6 : k < 6 := hk
    interval_cases k <;> rfl

/-- Witness for C4: in a concrete root node the first child is the layer with
enum value 5 (`OVERLAY`). -/
theorem C4_root_children_witness :
    (root_node_new 0 (fun i => 10 + i) (fun _ => none)).1[0]? = some ⟨15, true⟩ :=
  (C4_root_children 0 (fun i => 10 + i) (fun _ => none)).2.2.2 0 (by decide)

/-- C5: a freshly constructed output container node has exactly two children,
both structural, the static container before the dynamic one; for every state
reachable by subsequent `set_children_list` calls, any proposed list that
removes either fixed child or swaps their relative order is rejected, while a
list that keeps them in order and inserts additional non-structural siblings
around them succeeds. -/
theorem C5_output_node_fixed_children (selfId staticId dynId : Nat)
    (par : ParentMap) (hne : staticId ≠ dynId) :
    ((output_node_new selfId staticId dynId par).1 =
      [⟨staticId, true⟩, ⟨dynId, true⟩] ∧
      ∀ x ∈ (output_node_new selfId staticId dynId par).1, x.is_structure = true) ∧
    (∀ c p, reach selfId (output_node_new selfId staticId dynId par) (c, p) →
      extract_structure_nodes c = [⟨staticId, true⟩, ⟨dynId, true⟩] ∧
      (∀ nl, ((⟨staticId, true⟩ : Node) ∉ nl ∨ (⟨dynId, true⟩ : Node) ∉ nl ∨
          extract_structure_nodes nl = [⟨dynId, true⟩, ⟨staticId, true⟩]) →
        (set_children_list selfId c p nl).1 = false) ∧
      (∀ pre mid post, (∀ x ∈ pre, x.is_structure = false) →
        (∀ x ∈ mid, x.is_structure = false) →
        (∀ x ∈ post, x.is_structure = false) →
        (set_children_list selfId c p
          (pre ++ ⟨staticId, true⟩ :: (mid ++ ⟨dynId, true⟩ :: post))).1 = true ∧
        (set_children_list selfId c p
          (pre ++ ⟨staticId, true⟩ :: (mid ++ ⟨dynId, true⟩ :: post))).2.1 =
          pre ++ ⟨staticId, true⟩ :: (mid ++ ⟨dynId, true⟩ :: post))) := by
  constructor
  · refine ⟨rfl, ?_⟩
    intro x hx
    simp only [output_node_new, set_children_unchecked, List.mem_cons,
      List.not_mem_nil, or_false] at hx
    rcases hx with rfl | rfl <;> rfl
  · intro c p hr
    have hext : extract_structure_nodes c = [⟨staticId, true⟩, ⟨dynId, true⟩] := by
      have h := reach_extract selfId _ _ hr
      simpa [output_node_new, set_children_unchecked, extract_structure_nodes] using h
    refine ⟨hext, ?_, ?_⟩
    · intro nl hbad
      cases hok : (set_children_list selfId c p nl).1 with
      | false => rfl
      | true =>
        exfalso
        have heq : extract_structure_nodes nl = [⟨staticId, true⟩, ⟨dynId, true⟩] := by
          rw [← hext]
          exact ((scl_success_iff selfId c p nl).mp hok).symm
        rcases hbad with hs | hd | hswap
        · exact hs (List.mem_of_mem_filter (by rw [extract_structure_nodes] at heq; rw [heq]; simp))
        · exact hd (List.mem_of_mem_filter (by rw [extract_structure_nodes] at heq; rw [heq]; simp))
        · rw [heq] at hswap
          have : dynId = staticId := congrArg Node.id (List.head_eq_of_cons_eq hswap.symm)
          exact hne this.symm
    · intro pre mid post hpre hmid hpost
      have hprex : extract_structure_nodes pre = [] :=
        List.filter_eq_nil_iff.mpr (by intro a ha; simp [hpre a ha])
      have hmidx : extract_structure_nodes mid = [] :=
        List.filter_eq_nil_iff.mpr (by intro a ha; simp [hmid a ha])
      have hpostx : extract_structure_nodes post = [] :=
        List.filter_eq_nil_iff.mpr (by intro a ha; simp [hpost a ha])
      have hnlx : extract_structure_nodes
          (pre ++ ⟨staticId, true⟩ :: (mid ++ ⟨dynId, true⟩ :: post)) =
          [⟨staticId, true⟩, ⟨dynId, true⟩] := by
        rw [extract_append]
        rw [hprex]
        show extract_structure_nodes (⟨staticId, true⟩ :: (mid ++ ⟨dynId, true⟩ :: post)) =
          [⟨staticId, true⟩, ⟨dynId, true⟩]
        rw [show extract_structure_nodes (⟨staticId, true⟩ :: (mid ++ ⟨dynId, true⟩ :: post)) =
            ⟨staticId, true⟩ :: extract_structure_nodes (mid ++ ⟨dynId, true⟩ :: post) from rfl]
        rw [extract_append, hmidx]
        rw [show extract_structure_nodes (⟨dynId, true⟩ :: post) =
            ⟨dynId, true⟩ :: extract_structure_nodes post from rfl, hpostx]
        rfl
      have hcond : extract_structure_nodes c = extract_structure_nodes
          (pre ++ ⟨staticId, true⟩ :: (mid ++ ⟨dynId, true⟩ :: post)) := by
        rw [hext, hnlx]
      exact ⟨(scl_success_iff selfId c p _).mpr hcond,
        scl_children_of_success selfId c p _ hcond⟩

/-- Witness for C5: on a fresh output container (ids 0, 1, 2), emptying the
child list is rejected, while wrapping the two fixed children in non-structural
siblings succeeds. -/
theorem C5_output_node_fixed_children_witness :
    (set_children_list 0 (output_node_new 0 1 2 (fun _ => none)).1
      (output_node_new 0 1 2 (fun _ => none)).2 []).1 = false ∧
    (set_children_list 0 (output_node_new 0 1 2 (fun _ => none)).1
      (output_node_new 0 1 2 (fun _ => none)).2
      ([⟨9, false⟩] ++ ⟨1, true⟩ :: ([] ++ ⟨2, true⟩ :: []))).1 = true := by
  have h := (C5_output_node_fixed_children 0 1 2 (fun _ => none) (by decide)).2
    (output_node_new 0 1 2 (fun _ => none)).1
    (output_node_new 0 1 2 (fun _ => none)).2
    (reach.refl _)
  exact ⟨h.2.1 [] (Or.inl (by decide)),
    (h.2.2 [⟨9, false⟩] [] [] (by decide) (by decide) (by decide)).1⟩

/-- C6: for a layer node and an output identity not currently registered,
`handle_outputs_changed(O, true)` followed by `node_for_output(O)` returns a
non-empty output container node whose parent is the layer node and which is
present in the child sequence; after any intermediate reordering by
`set_children_list`, `handle_outputs_changed(O, false)` makes
`node_for_output(O)` empty and removes exactly that node, by identity, from
the child sequence. -/
theorem C6_output_add_remove_lifecycle (self : Nat) (st : LayerState)
    (par : ParentMap) (output freshId : Nat)
    (hreg : node_for_output st output = none)
    (hfresh : (⟨freshId, true⟩ : Node) ∉ st.children) :
    ∃ st2 par2,
      handle_outputs_changed self st par output true freshId = some (st2, par2) ∧
      node_for_output st2 output = some ⟨freshId, true⟩ ∧
      (⟨freshId, true⟩ : Node) ∈ st2.children ∧
      par2 freshId = some self ∧
      ∀ c2 p2, reach self (st2.children, par2) (c2, p2) →
        ∃ st3 par3,
          handle_outputs_changed self ⟨c2, st2.outputs⟩ p2 output false freshId =
            some (st3, par3) ∧
          node_for_output st3 output = none ∧
          (⟨freshId, true⟩ : Node) ∉ st3.children ∧
          st3.children = c2.filter (fun n => n ≠ ⟨freshId, true⟩) := by
  have hfind : st.outputs.find? (fun p => p.1 == output) = none := by
    unfold node_for_output at hreg
    cases h : st.outputs.find? (fun p => p.1 == output) with
    | none => rfl
    | some v => rw [h] at hreg; simp at hreg
  have hmap : map_insert st.outputs output ⟨freshId, true⟩ =
      st.outputs ++ [(output, ⟨freshId, true⟩)] :=
    map_insert_of_not_found st.outputs output _ hfind
  refine ⟨{ children := st.children ++ [⟨freshId, true⟩],
            outputs := map_insert st.outputs output ⟨freshId, true⟩ },
          (set_children_unchecked self (st.children ++ [⟨freshId, true⟩]) par).2,
          ?_, ?_, ?_, ?_, ?_⟩
  · rfl
  · show ((map_insert st.outputs output ⟨freshId, true⟩).find?
      (fun p => p.1 == output)).map Prod.snd = some ⟨freshId, true⟩
    rw [hmap, List.find?_append, hfind]
    simp [List.find?]
  · exact List.mem_append_right _ (by simp)
  · exact set_children_unchecked_parent self _ par ⟨freshId, true⟩ (by simp)
  · intro c2 p2 hr2
    have hext2 : extract_structure_nodes c2 =
        extract_structure_nodes (st.children ++ [⟨freshId, true⟩]) :=
      reach_extract self _ _ hr2
    have hcount2 : c2.count (⟨freshId, true⟩ : Node) = 1 := by
      have h1 := count_extract_structure ⟨freshId, true⟩ rfl c2
      have h2 := count_extract_structure ⟨freshId, true⟩ rfl
        (st.children ++ [⟨freshId, true⟩])
      rw [← h1, hext2, h2, List.count_append,
        List.count_eq_zero_of_not_mem hfresh]
      simp
    have hnfo2 : node_for_output ⟨c2, map_insert st.outputs output ⟨freshId, true⟩⟩
        output = some ⟨freshId, true⟩ := by
      show ((map_insert st.outputs output ⟨freshId, true⟩).find?
        (fun p => p.1 == output)).map Prod.snd = some ⟨freshId, true⟩
      rw [hmap, List.find?_append, hfind]
      simp [List.find?]
    refine ⟨{ children := c2.filter (fun n => n ≠ ⟨freshId, true⟩),
              outputs := map_erase (map_insert st.outputs output ⟨freshId, true⟩)
                output },
            (set_children_unchecked self
              (c2.filter (fun n => n ≠ ⟨freshId, true⟩)) p2).2,
            ?_, ?_, ?_, rfl⟩
    · unfold handle_outputs_changed
      rw [if_neg Bool.false_ne_true]
      simp [hnfo2, hcount2]
      rfl
    · show ((map_erase (map_insert st.outputs output ⟨freshId, true⟩) output).find?
        (fun p => p.1 == output)).map Prod.snd = none
      rw [find?_map_erase]
      rfl
    · simp

/-- Witness for C6: adding output 3 to an empty layer node yields a registered
container for identity 3. -/
theorem C6_output_add_remove_lifecycle_witness :
    ∃ st2 par2,
      handle_outputs_changed 0 ⟨[], []⟩ (fun _ => none) 3 true 7 =
        some (st2, par2) ∧
      node_for_output st2 3 = some ⟨7, true⟩ := by
  obtain ⟨st2, par2, h1, h2, -⟩ :=
    C6_output_add_remove_lifecycle 0 ⟨[], []⟩ (fun _ => none) 3 7 (by decide)
      (by decide)
  exact ⟨st2, par2, h1, h2⟩

/-- Counterexample to C7: a layer node already holding one output container
`⟨1,tt⟩` (registered for output 0) as its topmost child. Adding output 5
appends the new container `⟨2,tt⟩` at the back of the child sequence
(`list.push_back`), and the topmost child among this layer's output
containers — the first child, in the topmost-first child order, that is a
value of the layer's outputs map — is still the pre-existing container
`⟨1,tt⟩`, not the newly constructed `⟨2,tt⟩`. -/
theorem C7_counterexample :
    hoc_result_children 0 ⟨[⟨1, true⟩], [(0, ⟨1, true⟩)]⟩ (fun _ => none) 5 true 2 =
      some [⟨1, true⟩, ⟨2, true⟩] ∧
    hoc_result_outputs 0 ⟨[⟨1, true⟩], [(0, ⟨1, true⟩)]⟩ (fun _ => none) 5 true 2 =
      some [(0, ⟨1, true⟩), (5, ⟨2, true⟩)] ∧
    ([⟨1, true⟩, ⟨2, true⟩] : List Node).find?
      (is_output_container [(0, ⟨1, true⟩), (5, ⟨2, true⟩)]) = some ⟨1, true⟩ ∧
    (⟨1, true⟩ : Node) ≠ ⟨2, true⟩ := by
  refine ⟨rfl, rfl, by decide, by decide⟩

/-- C7 amended: when `handle_outputs_changed(O, true)` is called on a layer
node, the newly constructed output container is appended at the back of the
current child sequence; with the child sequence ordered topmost (first) to
bottommost (last), it therefore becomes the new bottommost child among this
layer's output containers: for any property the new container satisfies — in
particular, being one of this layer's output containers — the topmost child
satisfying it is unchanged whenever some pre-existing child already satisfies
it, and is the new container only when no pre-existing child does. -/
theorem C7_amended_output_appended_last (self : Nat) (st : LayerState)
    (par : ParentMap) (output freshId : Nat) :
    ∃ par2,
      handle_outputs_changed self st par output true freshId =
        some ({ children := st.children ++ [⟨freshId, true⟩],
                outputs := map_insert st.outputs output ⟨freshId, true⟩ }, par2) ∧
      List.getLast? (st.children ++ [⟨freshId, true⟩]) = some ⟨freshId, true⟩ ∧
      ∀ p : Node → Bool, p ⟨freshId, true⟩ = true →
        List.find? p (st.children ++ [⟨freshId, true⟩]) =
          (List.find? p st.children).or (some ⟨freshId, true⟩) := by
  refine ⟨(set_children_unchecked self (st.children ++ [⟨freshId, true⟩]) par).2,
    ?_, List.getLast?_concat _, ?_⟩
  · rfl
  · intro p hp
    rw [List.find?_append]
    have hsing : List.find? p [(⟨freshId, true⟩ : Node)] = some ⟨freshId, true⟩ := by
      simp [List.find?, hp]
    rw [hsing]

/-- Witness for C7 amended: on the layer of the counterexample, the topmost
child among the layer's output containers after the addition is the first
container found among the old children when one exists — here the
pre-existing `⟨1,tt⟩`. -/
theorem C7_amended_output_appended_last_witness :
    List.find? (is_output_container [(0, ⟨1, true⟩), (5, ⟨2, true⟩)])
        (([⟨1, true⟩] : List Node) ++ ([⟨2, true⟩] : List Node)) =
      (List.find? (is_output_container [(0, ⟨1, true⟩), (5, ⟨2, true⟩)])
        ([⟨1, true⟩] : List Node)).or (some ⟨2, true⟩) := by
  obtain ⟨par2, -, -, h⟩ := C7_amended_output_appended_last 0
    ⟨[⟨1, true⟩], [(0, ⟨1, true⟩)]⟩ (fun _ => none) 5 2
  exact h (is_output_container [(0, ⟨1, true⟩), (5, ⟨2, true⟩)]) (by decide)

/-- Counterexample to C9: `set_children_list` performs no duplicate check, so
passing the same non-structural node twice to a freshly constructed (empty)
layer node succeeds and leaves the node at two distinct positions. -/
theorem C9_counterexample :
    (set_children_list 0 [] (fun _ => none) [⟨7, false⟩, ⟨7, false⟩]).1 = true ∧
    (set_children_list 0 [] (fun _ => none) [⟨7, false⟩, ⟨7, false⟩]).2.1 =
      [⟨7, false⟩, ⟨7, false⟩] ∧
    ¬ ([⟨7, false⟩, ⟨7, false⟩] : List Node).Nodup := by
  constructor
  · decide
  constructor
  · rfl
  · decide

/-- C9 amended: starting from a freshly constructed layer node (empty child
list), after any sequence of `set_children_list` and defined
`handle_outputs_changed` operations, the child sequence has no duplicate
entries — provided every `set_children_list` call is given a duplicate-free
list and every added output container is fresh (not already a child). Without
that proviso the code accepts a list containing the same non-structural node
twice (see the counterexample). -/
theorem C9_amended_no_duplicate_children (self : Nat) (par : ParentMap)
    (t : LayerState × ParentMap)
    (h : layer_steps self ({ children := [], outputs := [] }, par) t) :
    t.1.children.Nodup := by
  induction h with
  | refl => exact List.nodup_nil
  | scl t nl hnd h ih =>
    rcases scl_children_cases self t.1.children t.2 nl with hc | hc
    · show (set_children_list self t.1.children t.2 nl).2.1.Nodup
      rw [hc]
      exact ih
    · show (set_children_list self t.1.children t.2 nl).2.1.Nodup
      rw [hc]
      exact hnd
  | hoc t output add freshId u hf h hu ih =>
    rcases hoc_children_cases self t.1 t.2 output add freshId u.1 u.2 hu with hc | hc
    · rw [hc]
      rw [List.nodup_append]
      exact ⟨ih, List.nodup_singleton _,
        fun a ha hb => hf (by rwa [List.mem_singleton.mp hb] at ha)⟩
    · obtain ⟨target, hc⟩ := hc
      rw [hc]
      exact ih.filter _

/-- Witness for C9 amended: after adding a fresh output container to an empty
layer node, the child list is duplicate-free. -/
theorem C9_amended_no_duplicate_children_witness :
    ({ children := [⟨7, true⟩], outputs := [(0, ⟨7, true⟩)] } : LayerState).children.Nodup :=
  C9_amended_no_duplicate_children 0 (fun _ => none)
    ({ children := [⟨7, true⟩], outputs := [(0, ⟨7, true⟩)] },
      (set_children_unchecked 0 ([] ++ [(⟨7, true⟩ : Node)]) (fun _ => none)).2)
    (layer_steps.hoc _ _ 0 true 7 _ (by decide) (layer_steps.refl _) (by rfl))

/-- C10: the code has no defensive assertion on either misuse path.
`handle_outputs_changed(O, added=false)` with an unregistered `O`
default-inserts a null map entry via `outputs[output]` and then evaluates
`list.erase(std::remove(...))` on a vector containing no match, i.e.
`erase(end())` — undefined behavior, modelled as the undefined result `none`
rather than a halt. And `handle_outputs_changed(O, added=true)` with an
already-registered `O` silently proceeds: it overwrites the map entry and
appends a second container while the old one stays in the child list. -/
theorem C10_no_assertion_on_misuse :
    (handle_outputs_changed 0 ⟨[⟨1, false⟩], []⟩ (fun _ => none) 5 false 9 = none) ∧
    (hoc_result_children 0 ⟨[⟨3, true⟩], [(5, ⟨3, true⟩)]⟩ (fun _ => none) 5 true 4 =
      some [⟨3, true⟩, ⟨4, true⟩]) :=
  ⟨rfl, rfl⟩

/-- The child loop of `find_node_at` is `List.findSome?` over the children. -/
theorem find_first_eq_findSome? (P A : Type) (cs : List (HNode P A)) (p : P) :
    find_first cs p = List.findSome? (fun c => find_node_at c p) cs := by
  induction cs with
  | nil => rfl
  | cons c rest ih =>
    rw [find_first, List.findSome?_cons]
    cases find_node_at c p with
    | none => simpa using ih
    | some r => rfl

/-- C8: `find_node_at` on an inner node iterates the children in stored order
(first child = frontmost), recursing into children, and returns the first
non-empty child result; if no child matches it returns none. In particular,
whenever every child before position `i` yields none and the child at `i`
yields a match, that match is the result. -/
theorem C8_find_node_at_first_match (P A : Type) (cs : List (HNode P A)) (p : P) :
    (find_node_at (HNode.inner cs) p =
      List.findSome? (fun c => find_node_at c p) cs) ∧
    (find_node_at (HNode.inner cs) p = none ↔
      ∀ c ∈ cs, find_node_at c p = none) ∧
    (∀ l1 c l2 r, cs = l1 ++ c :: l2 →
      (∀ x ∈ l1, find_node_at x p = none) →
      find_node_at c p = some r →
      find_node_at (HNode.inner cs) p = some r) := by
  have hinner : find_node_at (HNode.inner cs) p = find_first cs p := by
    rw [find_node_at]
  refine ⟨by rw [hinner, find_first_eq_findSome?], ?_, ?_⟩
  · rw [hinner, find_first_eq_findSome?]
    exact List.findSome?_eq_none_iff
  · intro l1 c l2 r hsplit hnone hc
    rw [hinner, hsplit]
    clear hinner hsplit
    induction l1 with
    | nil => rw [List.nil_append, find_first, hc]
    | cons a t ih =>
      have ha : find_node_at a p = none := hnone a (by simp)
      rw [List.cons_append, find_first, ha]
      exact ih (fun x hx => hnone x (by simp [hx]))

/-- Witness for C8: with two overlapping leaves over `Int` points, the point 7
is claimed by the first (topmost) leaf, and the point 20 by no leaf. -/
theorem C8_find_node_at_first_match_witness :
    find_node_at (HNode.inner
      [HNode.leaf (fun x : Int => if 0 ≤ x ∧ x < 10 then some 1 else none),
       HNode.leaf (fun x : Int => if 5 ≤ x ∧ x < 15 then some 2 else none)]) 7 =
      some 1 ∧
    find_node_at (HNode.inner
      [HNode.leaf (fun x : Int => if 0 ≤ x ∧ x < 10 then some 1 else none),
       HNode.leaf (fun x : Int => if 5 ≤ x ∧ x < 15 then some 2 else none)]) 20 =
      none := by
  constructor
  · exact (C8_find_node_at_first_match Int Nat
      [HNode.leaf (fun x : Int => if 0 ≤ x ∧ x < 10 then some 1 else none),
       HNode.leaf (fun x : Int => if 5 ≤ x ∧ x < 15 then some 2 else none)] 7).2.2
      [] (HNode.leaf (fun x : Int => if 0 ≤ x ∧ x < 10 then some 1 else none))
      [HNode.leaf (fun x : Int => if 5 ≤ x ∧ x < 15 then some 2 else none)] 1
      rfl (by simp) (by rw [find_node_at]; decide)
  · exact (C8_find_node_at_first_match Int Nat
      [HNode.leaf (fun x : Int => if 0 ≤ x ∧ x < 10 then some 1 else none),
       HNode.leaf (fun x : Int => if 5 ≤ x ∧ x < 15 then some 2 else none)] 20).2.1.mpr
      (by
        intro c hc
        simp only [List.mem_cons, List.not_mem_nil, or_false] at hc
        rcases hc with rfl | rfl <;> (rw [find_node_at]; decide))

end WfScene
